import Mathlib

/-!
Verification development for the marketing-portal repository: a browser-facing
proxy (three serverless request handlers) plus a client-side polling loop with
Fibonacci-style backoff.  The definitions below are shallow embeddings of the
JavaScript source: pure functions become Lean functions, the polling loop
becomes a structurally recursive function over the finite backoff schedule,
JavaScript runtime values become an explicit inductive type, and the platform
string primitives used by the source (split on CRLF or LF, trim,
encodeURIComponent, URL/URLSearchParams parsing, the one regular expression)
are modelled by executable Lean functions following their documented
semantics.
-/

/-! ## Backoff sequence generator (src/utils/polling.js, backoffIterator)

The source is a generator: starting from a = 1000, b = 2000 it yields
min(b, capMs) and then advances (a, b) to (b, a + b), for maxAttempts steps.
Note the yield happens BEFORE the advance, so the produced sequence begins
2000, 3000, 5000, ... even though the function's own doc comment announces
2s, 2s, 3s, 5s, 8s, 13s. -/

def backoffAux : Nat → Nat → Nat → Nat → List Nat
  | 0, _, _, _ => []
  | n + 1, a, b, capMs => min b capMs :: backoffAux n b (a + b) capMs

/-- List of the delays yielded by backoffIterator(maxAttempts, capMs).
The source defaults are maxAttempts = 60 and capMs = 15000. -/
def backoffList (maxAttempts capMs : Nat) : List Nat :=
  backoffAux maxAttempts 1000 2000 capMs

/-! ## Polling client (src/utils/polling.js, pollForReady / waitAndDownload)

The loop is modelled as a structurally recursive function over the remaining
backoff delays.  One fetch outcome per iteration is supplied by an oracle
`resp : Nat → FetchOutcome` (the outcome of the i-th fetch call, 0-indexed).
The cancellation signal is modelled by when it fires: never, before the loop
starts, or while the loop is suspended in the k-th backoff wait; the source
checks signal.aborted at loop entry and attaches an abort listener that
interrupts the setTimeout wait. -/

/-- Outcome of one fetch call inside the polling loop: an HTTP status, or a
rejected fetch promise (network failure). -/
inductive FetchOutcome
  | ok (status : Nat)
  | netErr
deriving DecidableEq

/-- When the cancellation signal fires relative to the polling loop. -/
inductive AbortSpec
  | never
  | atStart
  | duringWait (k : Nat)
deriving DecidableEq

/-- Value of signal.aborted at the entry check of iteration i: true from the
start for atStart, and true once the signal has fired during wait k (only
entries with i > k, which the interrupted wait in fact prevents from ever
being reached). -/
def signalAborted : AbortSpec → Nat → Bool
  | .never, _ => false
  | .atStart, _ => true
  | .duringWait k, i => decide (k < i)

/-- Whether the signal fires while the loop is suspended in the wait of
iteration i. -/
def waitInterrupted : AbortSpec → Nat → Bool
  | .duringWait k, i => k == i
  | _, _ => false

/-- Whether the try block of iteration i returns.  Mirrors the status
dispatch of pollForReady: status 200 returns ready; 202 falls through to the
wait; 400, 410 and every other status construct and throw an Error — but that
throw happens inside the try block, and the catch clause rethrows only
errors named AbortError, so those thrown Errors are swallowed and the loop
proceeds to the backoff wait exactly as it does for a network error. -/
def iterationReturnsReady : FetchOutcome → Bool
  | .ok s => s == 200
  | .netErr => false

/-- How one polling session terminates.  These are the only exits of
pollForReady: the ready return, the AbortError throws, and the
polling-timed-out throw when the backoff iterator is exhausted.  The thrown
400/410 rejection Errors documented in the source's comment never escape the
catch clause, so no rejected outcome is producible. -/
inductive PollResult
  | ready
  | abortError
  | timedOut
deriving DecidableEq

/-- Observable trace of one pollForReady run: how it ended, how many fetch
calls it made, and how many backoff waits it completed. -/
structure PollTrace where
  result : PollResult
  fetchCalls : Nat
  waits : Nat
deriving DecidableEq

/-- One iteration of the for-loop of pollForReady, recursing on the list of
delays still available from the backoff iterator.  i is the attempt counter.
The counts returned are the fetch calls made and waits completed from this
point on. -/
def pollAux (resp : Nat → FetchOutcome) (ab : AbortSpec) :
    List Nat → Nat → PollTrace
  | ds, i =>
    if signalAborted ab i then
      -- throw new DOMException('Aborted', 'AbortError') at loop entry
      ⟨.abortError, 0, 0⟩
    else if iterationReturnsReady (resp i) then
      -- status 200: return ready
      ⟨.ready, 1, 0⟩
    else
      -- every other outcome reaches the wait (see iterationReturnsReady)
      match ds with
      | [] =>
        -- it.next().value == null: throw 'Polling timed out' (status 504)
        ⟨.timedOut, 1, 0⟩
      | _ :: rest =>
        if waitInterrupted ab i then
          -- the abort listener clears the timer and rejects with AbortError
          ⟨.abortError, 1, 0⟩
        else
          let t := pollAux resp ab rest (i + 1)
          ⟨t.result, t.fetchCalls + 1, t.waits + 1⟩

/-- pollForReady(resultUrl, signal): the loop run against the default
backoff schedule backoffIterator() = backoffList 60 15000. -/
def pollForReady (resp : Nat → FetchOutcome) (ab : AbortSpec) : PollTrace :=
  pollAux resp ab (backoffList 60 15000) 0

/-- Observable trace of waitAndDownload: the poll trace plus how many times
the download trigger (triggerBrowserDownload) ran. -/
structure SessionTrace where
  result : PollResult
  fetchCalls : Nat
  waits : Nat
  downloads : Nat
deriving DecidableEq

/-- waitAndDownload awaits pollForReady and, only if it resolved ready,
invokes triggerBrowserDownload once, after the poll loop has finished; an
exception from pollForReady propagates and skips the trigger. -/
def waitAndDownload (resp : Nat → FetchOutcome) (ab : AbortSpec) :
    SessionTrace :=
  let t := pollForReady resp ab
  ⟨t.result, t.fetchCalls, t.waits, if t.result = .ready then 1 else 0⟩

/-- C2: the first six values of backoffIterator() with the default
parameters are 2000, 3000, 5000, 8000, 13000, 15000 — not the
2000, 2000, 3000, 5000, 8000, 13000 stated by the specification and by the
generator's own doc comment.  The generator yields min(b, cap) before
advancing (a, b), so the duplicated initial 2000 never appears. -/
theorem backoff_first_six :
    (backoffList 60 15000).take 6 = [2000, 3000, 5000, 8000, 13000, 15000] ∧
      (backoffList 60 15000).take 6 ≠ [2000, 2000, 3000, 5000, 8000, 13000] := by
  decide

/-- C1: a polling session whose fetch calls all return the expired-token
status 410 does not stop after one call with a rejected outcome.  The 410
branch throws inside the try block and the catch clause rethrows only
AbortError, so the rejection is swallowed as transient: the session makes 61
fetch calls, completes all 60 backoff waits, and ends with the
polling-timed-out error.  The download trigger is indeed never invoked. -/
theorem poll_expired_swallowed :
    pollForReady (fun _ => .ok 410) .never = ⟨.timedOut, 61, 60⟩ ∧
      waitAndDownload (fun _ => .ok 410) .never = ⟨.timedOut, 61, 60, 0⟩ := by
  decide

/-- Helper: if the signal fires during the wait of iteration k, every fetch
up to and including iteration k falls through to its wait, and enough delays
remain, then the loop ends with AbortError after exactly k - i + 1 further
fetch calls and k - i further completed waits. -/
theorem pollAux_duringWait (resp : Nat → FetchOutcome) :
    ∀ (ds : List Nat) (i k : Nat), i ≤ k → k - i < ds.length →
      (∀ j, i ≤ j → j ≤ k → iterationReturnsReady (resp j) = false) →
      pollAux resp (.duringWait k) ds i = ⟨.abortError, k - i + 1, k - i⟩ := by
  intro ds
  induction ds with
  | nil =>
    intro i k _ hlen _
    simp at hlen
  | cons d rest ih =>
    intro i k hik hlen hresp
    have hab : signalAborted (.duringWait k) i = false := by
      simp [signalAborted]
      omega
    have hr : iterationReturnsReady (resp i) = false := hresp i le_rfl hik
    by_cases hki : k = i
    · subst hki
      simp [pollAux, hab, hr, waitInterrupted]
    · have hwi : waitInterrupted (.duringWait k) i = false := by
        simp [waitInterrupted]
        omega
      have hlen' : k - (i + 1) < rest.length := by
        simp [List.length_cons] at hlen
        omega
      have ihr := ih (i + 1) k (by omega) hlen'
        (fun j hj hjk => hresp j (by omega) hjk)
      simp only [pollAux, hab, hr, hwi, Bool.false_eq_true, if_false]
      rw [ihr, show k - (i + 1) + 1 = k - i from by omega]

/-- C4: if the fetch-result endpoint answers 202, 202, 200 on the first three
calls, the polling session makes exactly 3 fetch calls, completes exactly 2
backoff waits (one between each pair of consecutive calls), resolves ready,
and waitAndDownload invokes the download trigger exactly once — after
pollForReady has returned, hence after the third call. -/
theorem poll_pending_pending_success (resp : Nat → FetchOutcome)
    (h0 : resp 0 = .ok 202) (h1 : resp 1 = .ok 202) (h2 : resp 2 = .ok 200) :
    waitAndDownload resp .never = ⟨.ready, 3, 2, 1⟩ := by
  have hds : backoffList 60 15000 =
      2000 :: 3000 :: backoffAux 58 3000 5000 15000 := rfl
  have hp : pollForReady resp .never = ⟨.ready, 3, 2⟩ := by
    rw [pollForReady, hds]
    simp [pollAux, signalAborted, waitInterrupted, iterationReturnsReady,
      h0, h1, h2]
  simp [waitAndDownload, hp]

/-- Witness for poll_pending_pending_success at a concrete upstream
schedule. -/
theorem poll_pending_pending_success_witness :
    waitAndDownload (fun i => if i < 2 then .ok 202 else .ok 200) .never =
      ⟨.ready, 3, 2, 1⟩ :=
  poll_pending_pending_success (fun i => if i < 2 then .ok 202 else .ok 200)
    rfl rfl rfl

/-- C7: a cancellation signal already aborted at loop entry ends the session
immediately with the AbortError outcome, zero fetch calls, zero waits and no
download; a signal firing while the loop is suspended in backoff wait k
(k below the 60-delay cap, with every call so far having fallen through to
its wait) ends the session with the AbortError outcome after exactly the
k + 1 calls already made, k completed waits, no further fetch call, and no
download. -/
theorem poll_cancellation :
    (∀ resp : Nat → FetchOutcome,
        waitAndDownload resp .atStart = ⟨.abortError, 0, 0, 0⟩) ∧
      (∀ (resp : Nat → FetchOutcome) (k : Nat), k < 60 →
        (∀ j, j ≤ k → iterationReturnsReady (resp j) = false) →
        waitAndDownload resp (.duringWait k) = ⟨.abortError, k + 1, k, 0⟩) := by
  constructor
  · intro resp
    have hp : pollForReady resp .atStart = ⟨.abortError, 0, 0⟩ := by
      rw [pollForReady, pollAux.eq_def]
      simp [signalAborted]
    simp [waitAndDownload, hp]
  · intro resp k hk hresp
    have hlen : k - 0 < (backoffList 60 15000).length := by
      have h60 : (backoffList 60 15000).length = 60 := by decide
      omega
    have h := pollAux_duringWait resp (backoffList 60 15000) 0 k
      (Nat.zero_le k) hlen (fun j _ hj => hresp j hj)
    have hp : pollForReady resp (.duringWait k) = ⟨.abortError, k + 1, k⟩ := by
      rw [pollForReady, h]
      simp
    simp [waitAndDownload, hp]

/-- Witness for poll_cancellation: both cancellation scenarios at a concrete
always-pending upstream. -/
theorem poll_cancellation_witness :
    waitAndDownload (fun _ => .ok 202) .atStart = ⟨.abortError, 0, 0, 0⟩ ∧
      waitAndDownload (fun _ => .ok 202) (.duringWait 0) =
        ⟨.abortError, 1, 0, 0⟩ :=
  ⟨poll_cancellation.1 (fun _ => .ok 202),
    poll_cancellation.2 (fun _ => .ok 202) 0 (by decide) (fun _ _ => rfl)⟩

/-! ## CSV validation and the 2-column transform
(api/marketing/generate_dm_list.js)

The source splits on the regular expression CR?LF, trims with
String.prototype.trim (whose whitespace set is modelled by jsWhitespace),
strips one leading byte-order mark, counts non-blank lines after the header,
and — on the 2-column header — rewrites the header and appends a trailing
comma to every non-blank data row. -/

/-- Whitespace for String.prototype.trim: tab, LF, VT, FF, CR, space, NBSP,
the Unicode space separators, line and paragraph separators, and the BOM. -/
def jsWhitespace (c : Char) : Bool :=
  ([9, 10, 11, 12, 13, 32, 160, 0x1680, 0x2000, 0x2001, 0x2002, 0x2003,
    0x2004, 0x2005, 0x2006, 0x2007, 0x2008, 0x2009, 0x200A, 0x2028, 0x2029,
    0x202F, 0x205F, 0x3000, 0xFEFF] : List Nat).contains c.toNat

/-- String.prototype.trim: drop jsWhitespace from both ends. -/
def jsTrim (s : String) : String :=
  String.mk (((s.data.dropWhile jsWhitespace).reverse.dropWhile
    jsWhitespace).reverse)

/-- Truthiness test used by the source on trimmed lines: a line is blank when
its trim is the empty string (this also covers the falsy empty line itself in
the check of the transform loop). -/
def isBlank (l : String) : Bool :=
  (jsTrim l).data.isEmpty

/-- csvText.replace of one leading U+FEFF with the empty string. -/
def stripBOM (s : String) : String :=
  match s.data with
  | [] => s
  | c :: rest => if c.toNat = 0xFEFF then String.mk rest else s

/-- Split on the regular expression CR?LF: a CRLF pair or a lone LF ends a
line; a CR not followed by LF is ordinary content.  The accumulator holds the
current line reversed. -/
def splitLinesAux : List Char → List Char → List (List Char)
  | [], acc => [acc.reverse]
  | '\r' :: '\n' :: rest, acc => acc.reverse :: splitLinesAux rest []
  | '\n' :: rest, acc => acc.reverse :: splitLinesAux rest []
  | c :: rest, acc => splitLinesAux rest (c :: acc)

/-- text.split on CR?LF. -/
def splitLines (s : String) : List String :=
  (splitLinesAux s.data []).map String.mk

/-- The accepted header lines, in source order. -/
def ALLOWED_HEADERS : List String :=
  ["userName,userLink,directMessage", "userName,userLink"]

/-- Row cap of the proxy validator. -/
def MAX_TARGETS : Nat := 300

/-- Result of validateCsv: the ok branch carries the row count, the error
branches carry the human-readable message and the machine code. -/
inductive CsvCheck
  | ok (count : Nat)
  | err (error : String) (code : String)
deriving DecidableEq

/-- Trimmed first line of the BOM-stripped text ((lines[0] or empty).trim()).
A split never produces an empty list, so the or-empty default is inert. -/
def headerOf (csvText : String) : String :=
  jsTrim ((splitLines (stripBOM csvText)).headD "")

/-- Number of non-blank lines after the header
(lines.slice(1).filter(trim nonempty).length). -/
def dataRowCount (csvText : String) : Nat :=
  ((splitLines (stripBOM csvText)).tail.filter (fun l => !(isBlank l))).length

/-- validateCsv: header must be one of the accepted headers, then the
non-blank data-row count must be between 1 and MAX_TARGETS. -/
def validateCsv (csvText : String) : CsvCheck :=
  if !(ALLOWED_HEADERS.contains (headerOf csvText)) then
    .err ("Invalid header. Expected one of: " ++
      String.intercalate " | " ALLOWED_HEADERS) "INVALID_HEADER"
  else if dataRowCount csvText = 0 then
    .err "No rows found after header." "EMPTY_ROWS"
  else if dataRowCount csvText > MAX_TARGETS then
    .err ("Too many rows: " ++ toString (dataRowCount csvText) ++
      ". Maximum allowed is " ++ toString MAX_TARGETS ++ ".") "TOO_MANY_ROWS"
  else
    .ok (dataRowCount csvText)

/-- line.endsWith of a comma. -/
def strEndsWithComma (l : String) : Bool :=
  match l.data.getLast? with
  | some c => c == ','
  | none => false

/-- Body of the transform loop for one data line: blank lines pass through
unchanged, non-blank lines get a trailing comma unless they already end in
one. -/
def expandRow (line : String) : String :=
  if isBlank line then line
  else if strEndsWithComma line then line
  else line ++ ","

/-- The body forwarded upstream by the generate_dm_list handler: when the
trimmed first line is the 2-column header, the header is rewritten to the
3-column canonical form and every data line runs through expandRow, joined
with LF; otherwise the body is forwarded as received. -/
def csvToSend (csvText : String) : String :=
  let lines := splitLines (stripBOM csvText)
  let header := jsTrim (lines.headD "")
  if header = "userName,userLink" then
    String.intercalate "\n"
      ("userName,userLink,directMessage" :: lines.tail.map expandRow)
  else csvText

/-- C6: for every CSV whose BOM-stripped, trimmed first line is an accepted
header, validateCsv rejects a zero data-row count with EMPTY_ROWS, accepts
any count between 1 and 300 returning it, and rejects any count above 300
with TOO_MANY_ROWS. -/
theorem csv_row_bounds (csv : String)
    (hh : ALLOWED_HEADERS.contains (headerOf csv) = true) :
    (dataRowCount csv = 0 →
      validateCsv csv = .err "No rows found after header." "EMPTY_ROWS") ∧
    (1 ≤ dataRowCount csv → dataRowCount csv ≤ 300 →
      validateCsv csv = .ok (dataRowCount csv)) ∧
    (300 < dataRowCount csv →
      validateCsv csv = .err ("Too many rows: " ++
        toString (dataRowCount csv) ++ ". Maximum allowed is " ++
        toString MAX_TARGETS ++ ".") "TOO_MANY_ROWS") := by
  have hm : headerOf csv ∈ ALLOWED_HEADERS := by simpa using hh
  refine ⟨?_, ?_, ?_⟩
  · intro h0
    simp [validateCsv, hh, hm, h0]
  · intro h1 h2
    have h0 : ¬ (dataRowCount csv = 0) := by omega
    have h3 : ¬ (dataRowCount csv > MAX_TARGETS) := by
      simp only [MAX_TARGETS]
      omega
    simp [validateCsv, hh, hm, h0, h3]
  · intro h301
    have h0 : ¬ (dataRowCount csv = 0) := by omega
    have h3 : dataRowCount csv > MAX_TARGETS := by
      simp only [MAX_TARGETS]
      omega
    simp [validateCsv, hh, hm, h0, h3]

/-- Witness for csv_row_bounds: the empty-row and the one-row cases at
concrete CSV texts. -/
theorem csv_row_bounds_witness :
    validateCsv "userName,userLink,directMessage" =
      CsvCheck.err "No rows found after header." "EMPTY_ROWS" ∧
    validateCsv "userName,userLink,directMessage\na,b,c" = CsvCheck.ok 1 := by
  have w1 := (csv_row_bounds "userName,userLink,directMessage"
    (by decide)).1 (by decide)
  have w2 := (csv_row_bounds "userName,userLink,directMessage\na,b,c"
    (by decide)).2.1 (by decide) (by decide)
  refine ⟨w1, ?_⟩
  rw [w2]
  decide

/-- Helper: a string containing a non-whitespace character does not trim to
the empty string. -/
theorem jsTrim_ne_nil_of_mem {s : String} {c : Char} (hc : jsWhitespace c = false)
    (hmem : c ∈ s.data) : (jsTrim s).data ≠ [] := by
  intro hnil
  have h1 : ((s.data.dropWhile jsWhitespace).reverse.dropWhile
      jsWhitespace).reverse = [] := hnil
  rw [List.reverse_eq_nil_iff, List.dropWhile_eq_nil_iff] at h1
  have h2 : ∀ x ∈ s.data.dropWhile jsWhitespace, jsWhitespace x := by
    intro x hx
    exact h1 x (List.mem_reverse.mpr hx)
  have hsplit := List.takeWhile_append_dropWhile (p := jsWhitespace)
    (l := s.data)
  rw [← hsplit] at hmem
  rcases List.mem_append.mp hmem with h | h
  · exact absurd (List.mem_takeWhile_imp h) (by simp [hc])
  · exact absurd (h2 c h) (by simp [hc])

/-- Helper: appending a comma always yields a line ending in a comma. -/
theorem strEndsWithComma_append (l : String) :
    strEndsWithComma (l ++ ",") = true := by
  have hdata : (l ++ ",").data = l.data ++ [','] := rfl
  simp [strEndsWithComma, hdata]

/-- Helper: the transform never changes whether a line is blank. -/
theorem isBlank_expandRow (l : String) : isBlank (expandRow l) = isBlank l := by
  by_cases hb : isBlank l
  · simp [expandRow, hb]
  · by_cases hc : strEndsWithComma l
    · simp [expandRow, hb, hc]
    · have hmem : ',' ∈ (l ++ ",").data := by
        simp [show (l ++ ",").data = l.data ++ [','] from rfl]
      have hne := jsTrim_ne_nil_of_mem (by decide) hmem
      simp only [expandRow, hb, hc, Bool.false_eq_true, if_false]
      simp only [isBlank, List.isEmpty_iff] at *
      simp [hne, hb]

/-- Helper: the transform preserves the number of non-blank lines. -/
theorem countP_map_expandRow (ls : List String) :
    (ls.map expandRow).countP (fun l => !(isBlank l)) =
      ls.countP (fun l => !(isBlank l)) := by
  induction ls with
  | nil => rfl
  | cons a t ih => simp [List.countP_cons, isBlank_expandRow, ih]

/-- Helper: splitting a string always yields at least one line. -/
theorem splitLinesAux_ne_nil (l acc : List Char) : splitLinesAux l acc ≠ [] := by
  induction l, acc using splitLinesAux.induct <;> simp_all [splitLinesAux]

/-- C5: for every CSV whose BOM-stripped, trimmed first line is the 2-column
header, the forwarded body is the transformed lines joined with LF, the
transformed header is the 3-column canonical form, the line count is
unchanged, blank data lines pass through unchanged while every non-blank
data line ends in a comma, and the non-blank data-row count is unchanged. -/
theorem csv_two_col_transform (csv : String)
    (hh : jsTrim ((splitLines (stripBOM csv)).headD "") = "userName,userLink") :
    csvToSend csv = String.intercalate "\n"
      ("userName,userLink,directMessage" ::
        (splitLines (stripBOM csv)).tail.map expandRow) ∧
    ("userName,userLink,directMessage" ::
        (splitLines (stripBOM csv)).tail.map expandRow).length =
      (splitLines (stripBOM csv)).length ∧
    (∀ l ∈ (splitLines (stripBOM csv)).tail,
      (isBlank l = true → expandRow l = l) ∧
      (isBlank l = false → strEndsWithComma (expandRow l) = true)) ∧
    ((splitLines (stripBOM csv)).tail.map expandRow).countP
        (fun l => !(isBlank l)) =
      (splitLines (stripBOM csv)).tail.countP (fun l => !(isBlank l)) := by
  refine ⟨?_, ?_, ?_, countP_map_expandRow _⟩
  · simp only [csvToSend]
    rw [if_pos hh]
  · have hne : splitLines (stripBOM csv) ≠ [] := by
      simp only [splitLines]
      intro h
      exact splitLinesAux_ne_nil (stripBOM csv).data []
        (by simpa using h)
    have hlen : 1 ≤ (splitLines (stripBOM csv)).length :=
      List.length_pos.mpr hne
    simp only [List.length_cons, List.length_map, List.length_tail]
    omega
  · intro l _
    constructor
    · intro hb
      simp [expandRow, hb]
    · intro hb
      by_cases hc : strEndsWithComma l = true
      · simp [expandRow, hb, hc]
      · simp only [expandRow, hb, hc, Bool.false_eq_true, if_false]
        exact strEndsWithComma_append l

/-- Witness for csv_two_col_transform: the transform of a concrete 2-column
CSV with one plain row, one blank line, and one row already ending in a
comma. -/
theorem csv_two_col_transform_witness :
    csvToSend "userName,userLink\na,b\n\nc,d," =
      "userName,userLink,directMessage\na,b,\n\nc,d," := by
  have h := csv_two_col_transform "userName,userLink\na,b\n\nc,d,"
    (by decide)
  rw [h.1]
  decide

/-! ## Result-URL rewriting (rewriteResultUrl in both submission handlers)

The source tries new URL(resultUrl) and searchParams.get('token'); if that
throws or yields a falsy token it scans with the regular expression
[?&]token=([^&]+); if that also fails it returns the bare path.  The platform
pieces (WHATWG URL parse, URLSearchParams decoding, encodeURIComponent) are
modelled below; the URL parser model keeps exactly the pieces the source
reads — scheme, host and query — with host validation reduced to rejecting
empty hosts and hosts containing a space, and percent-decoded bytes at or
above 0x80 kept as their Latin-1 code point (this agrees with the browser on
ASCII data). -/

/-- Uppercase hexadecimal digit for percent-encoding. -/
def hexDigitChar (n : Nat) : Char :=
  if n < 10 then Char.ofNat (48 + n) else Char.ofNat (55 + n)

/-- UTF-8 bytes of a code point. -/
def utf8Bytes (n : Nat) : List Nat :=
  if n < 0x80 then [n]
  else if n < 0x800 then [0xC0 + n / 64, 0x80 + n % 64]
  else if n < 0x10000 then
    [0xE0 + n / 4096, 0x80 + (n / 64) % 64, 0x80 + n % 64]
  else
    [0xF0 + n / 262144, 0x80 + (n / 4096) % 64, 0x80 + (n / 64) % 64,
      0x80 + n % 64]

/-- Characters encodeURIComponent leaves unescaped: ASCII letters, digits,
and - _ . ! ~ * apostrophe ( ). -/
def encodeURIComponentUnescaped (c : Char) : Bool :=
  (decide (65 ≤ c.toNat) && decide (c.toNat ≤ 90)) ||
    (decide (97 ≤ c.toNat) && decide (c.toNat ≤ 122)) ||
    (decide (48 ≤ c.toNat) && decide (c.toNat ≤ 57)) ||
    ([45, 95, 46, 33, 126, 42, 39, 40, 41] : List Nat).contains c.toNat

/-- encodeURIComponent: unescaped characters pass through, every other
character becomes the percent-encoding of its UTF-8 bytes. -/
def encodeURIComponent (s : String) : String :=
  String.mk (s.data.flatMap (fun c =>
    if encodeURIComponentUnescaped c then [c]
    else (utf8Bytes c.toNat).flatMap
      (fun b => ['%', hexDigitChar (b / 16), hexDigitChar (b % 16)])))

/-- First match of the regular expression [?&]token=([^&]+): the leftmost
position where '?' or '&' is followed by the literal token= and at least one
non-'&' character; the greedy capture is the maximal run of non-'&'
characters. -/
def regexTokenAux : List Char → Option String
  | [] => none
  | c :: rest =>
    if (c == '?' || c == '&') && List.isPrefixOf "token=".data rest then
      let captured := (rest.drop 6).takeWhile (fun d => !(d == '&'))
      if captured.isEmpty then regexTokenAux rest
      else some (String.mk captured)
    else regexTokenAux rest

/-- The regex fallback applied to a string. -/
def regexToken (s : String) : Option String :=
  regexTokenAux s.data

/-- Hexadecimal digit test, both cases. -/
def isHexDigitChar (c : Char) : Bool :=
  (decide (48 ≤ c.toNat) && decide (c.toNat ≤ 57)) ||
    (decide (65 ≤ c.toNat) && decide (c.toNat ≤ 70)) ||
    (decide (97 ≤ c.toNat) && decide (c.toNat ≤ 102))

/-- Value of a hexadecimal digit. -/
def hexCharVal (c : Char) : Nat :=
  if decide (97 ≤ c.toNat) then c.toNat - 87
  else if decide (65 ≤ c.toNat) then c.toNat - 55
  else c.toNat - 48

/-- application/x-www-form-urlencoded value decoding: '+' becomes a space and
%XX becomes the byte XX (kept as its code point; see the section comment). -/
def percentPlusDecode : List Char → List Char
  | [] => []
  | '%' :: a :: b :: rest =>
    if isHexDigitChar a && isHexDigitChar b then
      Char.ofNat (hexCharVal a * 16 + hexCharVal b) :: percentPlusDecode rest
    else '%' :: percentPlusDecode (a :: b :: rest)
  | '+' :: rest => ' ' :: percentPlusDecode rest
  | c :: rest => c :: percentPlusDecode rest

/-- Split a character list on a separator character; the accumulator holds
the current piece reversed. -/
def splitCharAux (sep : Char) : List Char → List Char → List (List Char)
  | [], acc => [acc.reverse]
  | c :: rest, acc =>
    if c == sep then acc.reverse :: splitCharAux sep rest []
    else splitCharAux sep rest (c :: acc)

/-- URLSearchParams(query).get(key): split the query on '&', skip empty
pieces, take the part before the first '=' as the name and the rest as the
value, decode both, and return the value of the first entry whose decoded
name equals the key. -/
def queryGet (query : String) (key : String) : Option String :=
  let pieces := (splitCharAux '&' query.data []).filter (fun p => !(p.isEmpty))
  let entries := pieces.map (fun p =>
    let name := p.takeWhile (fun c => !(c == '='))
    let value := if name.length < p.length then p.drop (name.length + 1)
      else []
    (String.mk (percentPlusDecode name), String.mk (percentPlusDecode value)))
  (entries.find? (fun e => e.1 == key)).map (fun e => e.2)

/-- ASCII letter test. -/
def isAsciiAlpha (c : Char) : Bool :=
  (decide (65 ≤ c.toNat) && decide (c.toNat ≤ 90)) ||
    (decide (97 ≤ c.toNat) && decide (c.toNat ≤ 122))

/-- Characters allowed after the first character of a URL scheme. -/
def isSchemeChar (c : Char) : Bool :=
  isAsciiAlpha c || c.isDigit || c == '+' || c == '-' || c == '.'

/-- Input normalization of the URL parser: strip leading and trailing C0
controls and spaces, then remove every tab and newline. -/
def urlPreprocess (s : String) : List Char :=
  ((s.data.dropWhile (fun c => decide (c.toNat ≤ 32))).reverse.dropWhile
    (fun c => decide (c.toNat ≤ 32))).reverse.filter
    (fun c => !(c == '\t' || c == '\n' || c == '\r'))

/-- Parse a scheme: an ASCII letter, then scheme characters, then a colon.
Returns the lowercased scheme and the text after the colon. -/
def splitScheme : List Char → Option (String × List Char)
  | [] => none
  | c :: rest =>
    if isAsciiAlpha c then
      let schemeRest := rest.takeWhile isSchemeChar
      match rest.drop schemeRest.length with
      | ':' :: tail =>
        some (String.mk ((c :: schemeRest).map Char.toLower), tail)
      | _ => none
    else none

/-- Schemes whose URLs require a nonempty host. -/
def specialSchemes : List String := ["http", "https", "ws", "wss", "ftp"]

/-- The pieces of a parsed URL that the source reads. -/
structure ParsedURL where
  scheme : String
  host : String
  query : String
deriving DecidableEq

/-- Model of new URL(input) for an absolute URL with no base.  For a special
scheme the parser skips any run of slashes or backslashes, reads the
authority up to the next delimiter, takes the host as the text after the
last '@' and before a port ':', and throws (returns none) when the host is
empty or contains a space.  The query is the text between the first '?' and
the fragment. -/
def parseURL (input : String) : Option ParsedURL :=
  match splitScheme (urlPreprocess input) with
  | none => none
  | some (scheme, rest) =>
    let beforeFrag := rest.takeWhile (fun c => !(c == '#'))
    let query :=
      String.mk ((beforeFrag.dropWhile (fun c => !(c == '?'))).drop 1)
    if specialSchemes.contains scheme then
      let afterSlashes := beforeFrag.dropWhile
        (fun c => c == '/' || c == '\\')
      let authority := afterSlashes.takeWhile
        (fun c => !(c == '/' || c == '\\' || c == '?'))
      let hostPort := (splitCharAux '@' authority []).getLastD []
      let host := hostPort.takeWhile (fun c => !(c == ':'))
      if host.isEmpty || host.contains ' ' then none
      else some ⟨scheme, String.mk host, query⟩
    else
      some ⟨scheme, "", query⟩

/-- Token extraction of the strict path: new URL(s) followed by
searchParams.get('token'); the source then tests the token for truthiness,
so an empty token behaves like an absent one. -/
def urlTokenOf (s : String) : Option String :=
  match parseURL s with
  | none => none
  | some u =>
    match queryGet u.query "token" with
    | none => none
    | some t => if t = "" then none else some t

/-- rewriteResultUrl(resultUrl): the strict URL path, then the regex
fallback on resultUrl-or-empty, then the bare path.  The none input models
the null or undefined resultUrl field, for which new URL throws and the
falsy guard hands the regex the empty string. -/
def rewriteResultUrl (resultUrl : Option String) : String :=
  match resultUrl.bind urlTokenOf with
  | some token => "/api/results?token=" ++ encodeURIComponent token
  | none =>
    match regexToken (resultUrl.getD "") with
    | some v => "/api/results?token=" ++ encodeURIComponent v
    | none => "/api/results"

/-- s.includes(pat) over the suffixes of s. -/
def containsSubstrAux (pat : List Char) : List Char → Bool
  | [] => pat.isEmpty
  | c :: rest => List.isPrefixOf pat (c :: rest) || containsSubstrAux pat rest

/-- Substring containment test (String.prototype.includes). -/
def containsSubstr (s pat : String) : Bool :=
  containsSubstrAux pat.data s.data

/-- Helper: a list is a Boolean prefix of itself followed by anything. -/
theorem isPrefixOf_append_self (l r : List Char) :
    List.isPrefixOf l (l ++ r) = true := by
  induction l with
  | nil => simp [List.isPrefixOf]
  | cons a as ih => simp [List.isPrefixOf, ih]

/-- C3 counterexample: the claim that the rewriter output never contains the
upstream host fails when the token value itself is the host string.  For the
input below the strict URL parse succeeds with host secret.example.com and
token value secret.example.com, and the rewritten location contains that
host as a substring. -/
theorem rewrite_host_leak_cex :
    rewriteResultUrl
        (some "https://secret.example.com/x?token=secret.example.com") =
      "/api/results?token=secret.example.com" ∧
    containsSubstr
        (rewriteResultUrl
          (some "https://secret.example.com/x?token=secret.example.com"))
        "secret.example.com" = true := by
  decide

/-- C3 (amended): whenever a token is found — by the strict URL parse or,
failing that, by the regex fallback — the rewriter returns exactly
/api/results?token= followed by the percent-encoding of the extracted value;
and every rewriter output begins with /api/results.  Nothing of the input
beyond the encoded token value reaches the output, so the upstream host,
scheme or port can appear only inside the token value itself. -/
theorem rewrite_token_shape :
    (∀ s : String, List.isPrefixOf "/api/results".data
      (rewriteResultUrl (some s)).data = true) ∧
    (∀ s t, urlTokenOf s = some t →
      rewriteResultUrl (some s) =
        "/api/results?token=" ++ encodeURIComponent t) ∧
    (∀ s v, urlTokenOf s = none → regexToken s = some v →
      rewriteResultUrl (some s) =
        "/api/results?token=" ++ encodeURIComponent v) := by
  refine ⟨?_, ?_, ?_⟩
  · intro s
    have hsplit : ∀ w : String, ("/api/results?token=" ++ w).data =
        "/api/results".data ++ ("?token=".data ++ w.data) := by
      intro w
      rfl
    rw [rewriteResultUrl]
    cases h : (some s).bind urlTokenOf with
    | some t =>
      rw [hsplit]
      exact isPrefixOf_append_self _ _
    | none =>
      cases h2 : regexToken ((some s).getD "") with
      | some v =>
        rw [hsplit]
        exact isPrefixOf_append_self _ _
      | none =>
        simp [show ("/api/results").data =
          "/api/results".data ++ ([] : List Char) from by simp,
          isPrefixOf_append_self]
  · intro s t h
    simp [rewriteResultUrl, h]
  · intro s v h1 h2
    simp [rewriteResultUrl, h1, h2]

/-- Witness for rewrite_token_shape: a strict-path input whose token is
percent-decoded and re-encoded, and a relative input reached through the
regex fallback. -/
theorem rewrite_token_shape_witness :
    rewriteResultUrl (some "https://backend.internal/results?token=a%20b") =
      "/api/results?token=" ++ encodeURIComponent "a b" ∧
    rewriteResultUrl (some "relative/path?token=xyz") =
      "/api/results?token=" ++ encodeURIComponent "xyz" :=
  ⟨rewrite_token_shape.2.1 _ "a b" (by decide),
    rewrite_token_shape.2.2 _ "xyz" (by decide) (by decide)⟩

/-- C9: when neither the strict URL parse nor the regex fallback finds a
token — including the empty string and the null/undefined input — the
rewriter returns the bare path /api/results with no query string. -/
theorem rewrite_no_token :
    rewriteResultUrl none = "/api/results" ∧
    (∀ s : String, urlTokenOf s = none → regexToken s = none →
      rewriteResultUrl (some s) = "/api/results") := by
  constructor
  · rfl
  · intro s h1 h2
    simp [rewriteResultUrl, h1, h2]

/-- Witness for rewrite_no_token: the empty input and a token-free absolute
URL. -/
theorem rewrite_no_token_witness :
    rewriteResultUrl (some "") = "/api/results" ∧
    rewriteResultUrl (some "https://backend.internal/results") =
      "/api/results" :=
  ⟨rewrite_no_token.2 "" (by decide) (by decide),
    rewrite_no_token.2 "https://backend.internal/results" (by decide)
      (by decide)⟩

/-! ## Leads payload validation (api/marketing/generate_leads.js) and the
three proxy handlers

JavaScript runtime values are modelled by JSValue, with typeof semantics:
typeof null, arrays and plain objects all report object. -/

/-- JSON-decodable JavaScript values, plus undefined for absent fields. -/
inductive JSValue
  | null
  | undefined
  | bool (b : Bool)
  | num (n : Int)
  | str (s : String)
  | arr (elems : List JSValue)
  | obj (fields : List (String × JSValue))

/-- The typeof operator: null, arrays and objects all report object. -/
def jsTypeof : JSValue → String
  | .null => "object"
  | .undefined => "undefined"
  | .bool _ => "boolean"
  | .num _ => "number"
  | .str _ => "string"
  | .arr _ => "object"
  | .obj _ => "object"

/-- Strict null test (payload === null). -/
def isNull : JSValue → Bool
  | .null => true
  | _ => false

/-- Strict undefined test (filters !== undefined). -/
def isUndefined : JSValue → Bool
  | .undefined => true
  | _ => false

/-- Property access v[k]: the field value on an object (JSON.parse keeps the
last duplicate of a key, so keys are unique and the first match suffices),
undefined otherwise. -/
def jsGet : JSValue → String → JSValue
  | .obj fields, k =>
    match fields.find? (fun p => p.1 == k) with
    | some p => p.2
    | none => .undefined
  | _, _ => .undefined

/-- One seed entry passes when it is a string whose trim is nonempty
(typeof u === 'string' && u.trim().length > 0). -/
def validSeedItem : JSValue → Bool
  | .str s => !(isBlank s)
  | _ => false

/-- Result of validatePayload. -/
inductive LeadsCheck
  | ok
  | err (error : String) (code : String)
deriving DecidableEq

/-- validatePayload: reject non-objects and null; require seedUserNames to
be a nonempty array of non-blank strings (the for-of loop returns on the
first bad item, which agrees with the any-test on the final result); and
require filters, when present, to have typeof object. -/
def validatePayload (payload : JSValue) : LeadsCheck :=
  if !(jsTypeof payload == "object") || isNull payload then
    .err "Body must be a JSON object." "INVALID_JSON"
  else
    match jsGet payload "seedUserNames" with
    | .arr xs =>
      if xs.isEmpty then
        .err "seedUserNames must be a non-empty array of strings."
          "INVALID_SEED"
      else if xs.any (fun u => !(validSeedItem u)) then
        .err "Each seed user name must be a non-empty string."
          "INVALID_SEED_ITEM"
      else if !(isUndefined (jsGet payload "filters")) &&
          !(jsTypeof (jsGet payload "filters") == "object") then
        .err "filters must be an object if provided." "INVALID_FILTERS"
      else
        .ok
    | _ =>
      .err "seedUserNames must be a non-empty array of strings."
        "INVALID_SEED"

/-- Request method, as the handlers dispatch on it. -/
inductive Method
  | OPTIONS
  | POST
  | GET
  | other
deriving DecidableEq

/-- The parts of the upstream fetch response the handlers read.  resultUrl
is the resultUrl field of the parsed 202 JSON body. -/
structure UpstreamResponse where
  status : Nat
  contentType : Option String
  contentDisposition : Option String
  body : String
  resultUrl : Option String
deriving DecidableEq

/-- The response classes a handler can produce, carrying the data that
determines each response. -/
inductive HandlerOutcome
  | preflight
  | methodNotAllowed
  | internalError
  | validationError (error : String) (code : String)
  | passthroughJson (status : Nat) (body : String)
  | passthroughText (status : Nat) (body : String)
  | accepted (rewrittenResultUrl : String)
  | streamed (contentType : String) (contentDisposition : Option String)
  | pendingRelay (body : String)
deriving DecidableEq

/-- HTTP status of each outcome as set by the handlers. -/
def statusOfOutcome : HandlerOutcome → Nat
  | .preflight => 204
  | .methodNotAllowed => 405
  | .internalError => 500
  | .validationError _ _ => 400
  | .passthroughJson s _ => s
  | .passthroughText s _ => s
  | .accepted _ => 202
  | .streamed _ _ => 200
  | .pendingRelay _ => 202

/-- Body sent with every internalError outcome: JSON.stringify of the
generic error object in each handler's catch clause. -/
def internalErrorBody : String := "\x7b\"error\":\"Internal Server Error\"\x7d"

/-- The generate_dm_list handler: CORS preflight, method gate, the
getBackendBase read (whose throw on an absent environment variable the
catch clause turns into the generic 500), CSV validation, the 2-column
transform, and the upstream status dispatch.  Second component: the body
forwarded upstream, none when no upstream call was started. -/
def dmListHandler (env : Option String) (method : Method) (csvText : String)
    (upstream : Option UpstreamResponse) : HandlerOutcome × Option String :=
  match method with
  | .OPTIONS => (.preflight, none)
  | .POST =>
    match env with
    | none => (.internalError, none)
    | some _ =>
      match validateCsv csvText with
      | .err e c => (.validationError e c, none)
      | .ok _ =>
        let toSend := csvToSend csvText
        match upstream with
        | none => (.internalError, some toSend)
        | some up =>
          if up.status ≠ 202 then
            if containsSubstr (up.contentType.getD "") "application/json"
            then (.passthroughJson up.status up.body, some toSend)
            else (.passthroughText up.status up.body, some toSend)
          else (.accepted (rewriteResultUrl up.resultUrl), some toSend)
  | _ => (.methodNotAllowed, none)

/-- The generate_leads handler.  parsedBody abstracts readTextBody followed
by JSON.parse of the text or '\x7b\x7d': none models a parse failure.
Second component: the JSON value forwarded verbatim upstream. -/
def leadsHandler (env : Option String) (method : Method)
    (parsedBody : Option JSValue) (upstream : Option UpstreamResponse) :
    HandlerOutcome × Option JSValue :=
  match method with
  | .OPTIONS => (.preflight, none)
  | .POST =>
    match env with
    | none => (.internalError, none)
    | some _ =>
      match parsedBody with
      | none => (.validationError "Invalid JSON body" "INVALID_JSON", none)
      | some json =>
        match validatePayload json with
        | .err e c => (.validationError e c, none)
        | .ok =>
          match upstream with
          | none => (.internalError, some json)
          | some up =>
            if up.status ≠ 202 then
              if containsSubstr (up.contentType.getD "") "application/json"
              then (.passthroughJson up.status up.body, some json)
              else (.passthroughText up.status up.body, some json)
            else (.accepted (rewriteResultUrl up.resultUrl), some json)
  | _ => (.methodNotAllowed, none)

/-- The results handler (api/results.js): pass the status through, relay a
202 JSON body, stream a 200 body with the upstream content type (defaulted
to CSV) and content disposition, and otherwise pass through as JSON or
text. -/
def resultsHandler (env : Option String) (method : Method)
    (upstream : Option UpstreamResponse) : HandlerOutcome :=
  match method with
  | .OPTIONS => .preflight
  | .GET =>
    match env with
    | none => .internalError
    | some _ =>
      match upstream with
      | none => .internalError
      | some up =>
        if up.status = 202 then .pendingRelay up.body
        else if up.status = 200 then
          .streamed (up.contentType.getD "text/csv; charset=utf-8")
            up.contentDisposition
        else if containsSubstr (up.contentType.getD "") "application/json"
        then .passthroughJson up.status up.body
        else .passthroughText up.status up.body
  | _ => .methodNotAllowed

/-- C10: the filters check uses typeof, so null and arrays pass — a payload
with valid seeds whose filters field is null or an array validates ok (and a
valid payload is forwarded verbatim upstream); conversely INVALID_FILTERS is
produced only when the filters field is present (not undefined) and its
typeof is not object. -/
theorem leads_filters_typeof :
    (∀ (fields : List (String × JSValue)) (xs : List JSValue),
      jsGet (.obj fields) "seedUserNames" = .arr xs → xs ≠ [] →
      (∀ u ∈ xs, validSeedItem u = true) →
      (jsGet (.obj fields) "filters" = .null ∨
        ∃ ys, jsGet (.obj fields) "filters" = .arr ys) →
      validatePayload (.obj fields) = .ok) ∧
    (∀ v : JSValue,
      validatePayload v =
        .err "filters must be an object if provided." "INVALID_FILTERS" →
      jsGet v "filters" ≠ .undefined ∧
      jsTypeof (jsGet v "filters") ≠ "object") ∧
    (∀ (payload : JSValue) (base : String) (up : Option UpstreamResponse),
      validatePayload payload = .ok →
      (leadsHandler (some base) .POST (some payload) up).2 = some payload) := by
  refine ⟨?_, ?_, ?_⟩
  · intro fields xs hseed hne hall hf
    have hempty : xs.isEmpty = false := by
      cases xs with
      | nil => exact absurd rfl hne
      | cons a t => rfl
    have hany : xs.any (fun u => !(validSeedItem u)) = false := by
      rw [List.any_eq_false]
      intro u hu
      simp [hall u hu]
    have hcond : (!(isUndefined (jsGet (JSValue.obj fields) "filters")) &&
        !(jsTypeof (jsGet (JSValue.obj fields) "filters") == "object")) =
        false := by
      rcases hf with hf | ⟨ys, hf⟩ <;> rw [hf] <;> rfl
    simp [validatePayload, hseed, hempty, hany, hcond]
    exact ⟨rfl, rfl⟩
  · intro v h
    rw [validatePayload] at h
    split at h
    · exact absurd h (by decide)
    · split at h
      · rename_i xs hxs
        split at h
        · exact absurd h (by decide)
        · split at h
          · exact absurd h (by decide)
          · split at h
            · rename_i hcond
              rw [Bool.and_eq_true] at hcond
              obtain ⟨hu, ht⟩ := hcond
              constructor
              · intro hf
                rw [hf] at hu
                exact absurd hu (by decide)
              · intro hf
                rw [hf] at ht
                exact absurd ht (by decide)
            · exact absurd h (by decide)
      · exact absurd h (by decide)
  · intro payload base up hok
    cases up with
    | none => simp [leadsHandler, hok]
    | some u =>
      simp only [leadsHandler, hok]
      split
      · split <;> rfl
      · rfl

/-- Witness for leads_filters_typeof: a null filters field and an array
filters field both validate ok, and a valid payload is the forwarded
body. -/
theorem leads_filters_typeof_witness :
    validatePayload (JSValue.obj
      [("seedUserNames", JSValue.arr [JSValue.str "alice"]),
        ("filters", JSValue.null)]) = LeadsCheck.ok ∧
    validatePayload (JSValue.obj
      [("seedUserNames", JSValue.arr [JSValue.str "alice"]),
        ("filters", JSValue.arr [])]) = LeadsCheck.ok ∧
    (leadsHandler (some "http://backend.internal") .POST
      (some (JSValue.obj
        [("seedUserNames", JSValue.arr [JSValue.str "alice"]),
          ("filters", JSValue.null)])) none).2 =
      some (JSValue.obj
        [("seedUserNames", JSValue.arr [JSValue.str "alice"]),
          ("filters", JSValue.null)]) := by
  have hseeds : ∀ u ∈ [JSValue.str "alice"], validSeedItem u = true := by
    intro u hu
    rw [List.mem_singleton.mp hu]
    rfl
  have h1 := leads_filters_typeof.1
    [("seedUserNames", JSValue.arr [JSValue.str "alice"]),
      ("filters", JSValue.null)]
    [JSValue.str "alice"] rfl (List.cons_ne_nil _ _) hseeds (Or.inl rfl)
  have h2 := leads_filters_typeof.1
    [("seedUserNames", JSValue.arr [JSValue.str "alice"]),
      ("filters", JSValue.arr [])]
    [JSValue.str "alice"] rfl (List.cons_ne_nil _ _) hseeds
    (Or.inr ⟨[], rfl⟩)
  exact ⟨h1, h2, leads_filters_typeof.2.2 _ "http://backend.internal" none h1⟩

/-- C8: with the base-URL environment variable absent, each of the three
handlers answers its main-method request with the internalError outcome —
status 500 and the generic JSON body — before reading the request body or
calling upstream; and that body does not contain the name of the missing
environment variable (nor, a fortiori, the thrown internal message naming
it). -/
theorem missing_backend_base_fails_closed :
    (∀ (csv : String) (up : Option UpstreamResponse),
      dmListHandler none .POST csv up = (.internalError, none)) ∧
    (∀ (body : Option JSValue) (up : Option UpstreamResponse),
      leadsHandler none .POST body up = (.internalError, none)) ∧
    (∀ up : Option UpstreamResponse,
      resultsHandler none .GET up = .internalError) ∧
    statusOfOutcome .internalError = 500 ∧
    internalErrorBody = "\x7b\"error\":\"Internal Server Error\"\x7d" ∧
    containsSubstr internalErrorBody "MARKETING_BACKEND_URL" = false :=
  ⟨fun _ _ => rfl, fun _ _ => rfl, fun _ => rfl, rfl, rfl, by decide⟩
